import Mathlib

/-!
Verification of the client-side search UI controller (`assets/js/search.js`)
and the random-number button handler of the botrun.github.io repository.

The JavaScript is shallowly embedded: module-level mutable variables and the
relevant DOM state (dropdown contents, `show` class, input focus, focus index)
become fields of an explicit `UIState` record, the event handlers become pure
state-transition functions, and the external MiniSearch library instance is an
opaque query function `String → Except String (List SearchResult)` stored in
the state (`null` becomes `none`).  Floating-point scores and weights are
embedded as rationals.  Console output is modelled as an append-only log.
-/

/-- A stored search record as kept by MiniSearch (`storeFields`) together with
the hit score the library attaches to a search result.  Scores and weights are
JavaScript numbers, embedded as rationals. -/
structure SearchResult where
  id : Nat
  name : String
  description : String
  path : String
  score : ℚ
  weight : ℚ
deriving Repr, DecidableEq

/-- One console entry (`console.log` / `console.warn` / `console.error`). -/
inductive LogEntry where
  | info (msg : String)
  | warn (msg : String)
  | error (msg : String)
deriving Repr, DecidableEq

/-- The MiniSearch instance built by `MiniSearch.loadJSON`: an opaque engine
that maps a query string to a hit list, or throws (the `catch` in
`performSearch`). -/
def SearchEngine : Type := String → Except String (List SearchResult)

/-- One rendered `<a class="search-result-item">` entry of the dropdown, as
produced by the `.map` inside `renderResults`: its `href`, the two
highlighted text fields, the rounded relevance percentage, the weight shown
in the meta line, the `data-index` attribute and whether it carries the
`active` class. -/
structure RenderedItem where
  path : String
  nameHtml : String
  descHtml : String
  relevance : ℤ
  weight : ℚ
  index : Nat
  isActive : Bool
deriving Repr, DecidableEq

/-- The contents of the `#search-results` container: empty (`innerHTML = ''`),
the no-results message `找不到相關技能`, or a list of rendered result items. -/
inductive DropdownContent where
  | empty
  | noResults
  | items (xs : List RenderedItem)
deriving Repr, DecidableEq

/-- The module-level mutable state of `search.js` together with the DOM state
the script manipulates. -/
structure UIState where
  /-- `let searchIndex = null` -/
  searchIndex : Option SearchEngine
  /-- `let currentFocusIndex = -1` (a JavaScript number, embedded as ℤ) -/
  currentFocusIndex : ℤ
  /-- `let searchResults = []` -/
  searchResults : List SearchResult
  /-- `searchDropdown.innerHTML` -/
  dropdownContent : DropdownContent
  /-- whether `searchDropdown.classList` contains `show` -/
  dropdownShown : Bool
  /-- whether `searchInput` has keyboard focus (`blur` clears it) -/
  inputFocused : Bool
  /-- `searchInput.value` -/
  inputValue : String
  /-- navigation triggered by `activeItem.click()` on Enter -/
  navigatedTo : Option String
  /-- console output so far -/
  log : List LogEntry

/-- The `.search-result-item` node list that
`searchDropdown.querySelectorAll('.search-result-item')` returns: the rendered
items when the dropdown holds items, and the empty list otherwise (in
particular when it shows only the no-results message). -/
def UIState.resultItems (st : UIState) : List RenderedItem :=
  match st.dropdownContent with
  | .items xs => xs
  | _ => []

/-- The keys `handleKeyboardNavigation` switches on; every other key falls
through the `switch`. -/
inductive Key where
  | arrowDown
  | arrowUp
  | enter
  | escape
  | other (s : String)
deriving Repr, DecidableEq

/-! ## `highlightMatch`

`highlightMatch` escapes the query so the regular expression matches it
literally, then performs a global case-insensitive replace, wrapping each
match in `<mark>…</mark>`.  A global regex replace with a literal pattern is a
greedy left-to-right non-overlapping scan, which we embed directly on
character lists.  The output is modelled first as a list of segments (plain
text and marked matches) and then rendered to the final HTML string. -/

/-- A fragment of `highlightMatch` output: text copied verbatim, or a matched
substring that gets wrapped in `<mark>…</mark>`. -/
inductive Seg where
  | plain (cs : List Char)
  | marked (cs : List Char)
deriving Repr, DecidableEq

/-- Case-insensitive test that `q` is an initial segment of `s`, mirroring
the `i` flag of the regular expression in `highlightMatch`. -/
def ciStartsWith : List Char → List Char → Bool
  | [], _ => true
  | _ :: _, [] => false
  | a :: q, b :: s => (a.toLower == b.toLower) && ciStartsWith q s

/-- The greedy left-to-right scan performed by the global regex replace in
`highlightMatch`: at each position, if the (escaped, hence literal) query
matches case-insensitively, the matched characters (taken from the original
text, as `$1` does) become a marked segment and scanning resumes after the
match; otherwise one character is copied and scanning advances by one. -/
def hlScan (q : List Char) : List Char → List Seg
  | [] => []
  | c :: rest =>
    if !q.isEmpty && ciStartsWith q (c :: rest) then
      Seg.marked ((c :: rest).take q.length) :: hlScan q (rest.drop (q.length - 1))
    else
      Seg.plain [c] :: hlScan q rest
termination_by s => s.length
decreasing_by
  · simp only [List.length_drop, List.length_cons]
    omega
  · simp only [List.length_cons]
    omega

/-- The characters of a segment, without the inserted `<mark>` markers. -/
def Seg.content : Seg → List Char
  | .plain cs => cs
  | .marked cs => cs

/-- Render one segment to HTML: marked segments are wrapped in
`<mark>…</mark>`, plain segments are copied verbatim. -/
def Seg.render : Seg → String
  | .plain cs => String.mk cs
  | .marked cs => "<mark>" ++ String.mk cs ++ "</mark>"

/-- Concatenated HTML of a segment list. -/
def renderSegs (segs : List Seg) : String :=
  String.join (segs.map Seg.render)

/-- Concatenated contents of a segment list: the output with every inserted
marker removed. -/
def stripSegs (segs : List Seg) : List Char :=
  (segs.map Seg.content).flatten

/-- `highlightMatch(text, query)`: returns `text` unchanged when either
argument is empty (the `!query || !text` guard), and otherwise wraps each
match of the greedy case-insensitive scan in `<mark>…</mark>`. -/
def highlightMatch (text query : String) : String :=
  if query.isEmpty || text.isEmpty then text
  else renderSegs (hlScan query.toList text.toList)

/-- `query` occurs case-insensitively in `text` at position `i`. -/
def occursAt (text query : List Char) (i : Nat) : Bool :=
  ciStartsWith query (text.drop i)

/-- Walk the segments of a `hlScan` output keeping the running character
offset `off`; `true` when the `len` characters starting at position `i` lie
inside a single marked segment. -/
def wrappedFrom : List Seg → Nat → Nat → Nat → Bool
  | [], _, _, _ => false
  | Seg.plain s :: rest, off, i, len => wrappedFrom rest (off + s.length) i len
  | Seg.marked s :: rest, off, i, len =>
      (decide (off ≤ i) && decide (i + len ≤ off + s.length))
      || wrappedFrom rest (off + s.length) i len

/-- The occurrence of length `len` at position `i` is wrapped in a single
`<mark>…</mark>` pair of the output. -/
def wrappedAt (segs : List Seg) (i len : Nat) : Bool :=
  wrappedFrom segs 0 i len

/-! ## Sorting (`performSearch`'s comparator)

`results.sort((a, b) => …)` sorts the library's hit list with a comparator
that orders by descending score when the scores differ by more than `0.1` and
by descending weight otherwise.  JavaScript's `Array.prototype.sort` with a
user comparator is embedded as insertion sort with that comparator, which
produces a list in which every adjacent pair satisfies the comparator. -/

/-- The comparator passed to `results.sort`: `b.score - a.score` when the
scores differ by more than `0.1`, `b.weight - a.weight` otherwise. -/
def sortCmp (a b : SearchResult) : ℚ :=
  if |b.score - a.score| > 1/10 then b.score - a.score else b.weight - a.weight

/-- Insert `x` into `l` before the first element `y` with `sortCmp x y ≤ 0`. -/
def insertCmp (x : SearchResult) : List SearchResult → List SearchResult
  | [] => [x]
  | y :: ys => if sortCmp x y ≤ 0 then x :: y :: ys else y :: insertCmp x ys

/-- Insertion sort with `sortCmp`, embedding `results.sort((a, b) => …)`. -/
def sortResults : List SearchResult → List SearchResult
  | [] => []
  | x :: xs => insertCmp x (sortResults xs)

/-! ## Rendering and search -/

/-- One iteration of the `.map` in `renderResults`: the rendered item for
`result` at position `index`, highlighting against the trimmed input value
and marking it `active` when `index === currentFocusIndex`. -/
def renderItem (st : UIState) (index : Nat) (r : SearchResult) : RenderedItem :=
  { path := r.path
    nameHtml := highlightMatch r.name (st.inputValue.trim)
    descHtml := highlightMatch r.description (st.inputValue.trim)
    relevance := round (r.score * 100)
    weight := r.weight
    index := index
    isActive := (index : ℤ) == st.currentFocusIndex }

/-- `results.slice(0, 8).map((result, index) => …)` unrolled with an explicit
running index. -/
def renderItemsFrom (st : UIState) : Nat → List SearchResult → List RenderedItem
  | _, [] => []
  | i, r :: rs => renderItem st i r :: renderItemsFrom st (i + 1) rs

/-- `renderResults(results)`: an empty hit list shows the no-results message
(with the `show` class); otherwise the first 8 results are rendered into the
dropdown and the `show` class is added. -/
def renderResults (st : UIState) (results : List SearchResult) : UIState :=
  if results.length = 0 then
    { st with dropdownContent := .noResults, dropdownShown := true }
  else
    { st with
        dropdownContent := .items (renderItemsFrom st 0 (results.take 8))
        dropdownShown := true }

/-- `console.warn('搜尋索引尚未載入')`. -/
def warnIndexNotLoaded : LogEntry := .warn "搜尋索引尚未載入"

/-- `console.error('搜尋錯誤:', error)`. -/
def errSearch (e : String) : LogEntry := .error ("搜尋錯誤: " ++ e)

/-- `performSearch(query)`: warn and return when the index is not loaded;
clear the dropdown and the stored state for queries shorter than 2
characters; otherwise query the engine, sort the hits, store them and render
them (a throwing search is caught and logged). -/
def performSearch (st : UIState) (query : String) : UIState :=
  match st.searchIndex with
  | none => { st with log := st.log ++ [warnIndexNotLoaded] }
  | some engine =>
    if query.length < 2 then
      { st with
          dropdownContent := .empty
          dropdownShown := false
          searchResults := []
          currentFocusIndex := -1 }
    else
      match engine query with
      | .error e => { st with log := st.log ++ [errSearch e] }
      | .ok results =>
          let sorted := sortResults results
          renderResults { st with searchResults := sorted } sorted

/-! ## Index loading -/

/-- The ways the index download can fail: a non-ok HTTP status (rethrown as
`HTTP error! status: …`), a network error from `fetch`, or a JSON parsing
error from `response.json()`. -/
inductive LoadError where
  | httpError (status : Nat)
  | networkError
  | jsonError
deriving Repr, DecidableEq

/-- `console.log('✅ 搜尋索引載入完成')`. -/
def infoIndexLoaded : LogEntry := .info "✅ 搜尋索引載入完成"

/-- `console.error('❌ 載入搜尋索引失敗:', error)`. -/
def errIndexLoad : LogEntry := .error "❌ 載入搜尋索引失敗:"

/-- `loadSearchIndex()`: on success the MiniSearch engine built by
`MiniSearch.loadJSON` is stored in `searchIndex`; any error is caught and
logged, leaving `searchIndex` untouched. -/
def loadSearchIndex (st : UIState) (fetched : Except LoadError SearchEngine) :
    UIState :=
  match fetched with
  | .ok engine => { st with searchIndex := some engine, log := st.log ++ [infoIndexLoaded] }
  | .error _ => { st with log := st.log ++ [errIndexLoad] }

/-! ## Keyboard navigation -/

/-- `updateActiveResult(resultItems)`: toggle the `active` class so that
exactly the item at `currentFocusIndex` carries it. -/
def updateActiveFrom (cfi : ℤ) : Nat → List RenderedItem → List RenderedItem
  | _, [] => []
  | i, it :: its =>
      { it with isActive := (i : ℤ) == cfi } :: updateActiveFrom cfi (i + 1) its

/-- Apply `updateActiveResult` to the dropdown items of a state. -/
def updateActiveResult (st : UIState) : UIState :=
  match st.dropdownContent with
  | .items xs =>
      { st with dropdownContent := .items (updateActiveFrom st.currentFocusIndex 0 xs) }
  | _ => st

/-- `handleKeyboardNavigation(e)`: return immediately when the dropdown holds
no result item; otherwise ArrowDown/ArrowUp move the focus index clamped to
`[-1, resultItems.length - 1]`, Enter clicks the focused item, and Escape
clears the dropdown, blurs the input and resets the focus index. -/
def handleKeyboardNavigation (st : UIState) (k : Key) : UIState :=
  let items := st.resultItems
  if items.length = 0 then st
  else
    match k with
    | .arrowDown =>
        updateActiveResult
          { st with currentFocusIndex := min (st.currentFocusIndex + 1) ((items.length : ℤ) - 1) }
    | .arrowUp =>
        updateActiveResult
          { st with currentFocusIndex := max (st.currentFocusIndex - 1) (-1) }
    | .enter =>
        if h : 0 ≤ st.currentFocusIndex ∧ st.currentFocusIndex < (items.length : ℤ) then
          { st with navigatedTo := some (items.get ⟨st.currentFocusIndex.toNat, by omega⟩).path }
        else st
    | .escape =>
        { st with
            dropdownContent := .empty
            dropdownShown := false
            inputFocused := false
            currentFocusIndex := -1 }
    | .other _ => st

/-! ## The random-number button (`part_000`) -/

/-- How the click handler's `try` block can end: `fetch('/api/number')`
throws, `resp.json()` throws, or both succeed yielding the parsed `number`
field. -/
inductive NumberFetchOutcome where
  | fetchThrows
  | jsonThrows
  | ok (number : ℤ)
deriving Repr, DecidableEq

/-- The fixed failure message `取得失敗`. -/
def numberFailMsg : String := "取得失敗"

/-- The success message `` `隨機數字是：${data.number}` ``. -/
def numberOkMsg (n : ℤ) : String := "隨機數字是：" ++ toString n

/-- The button's click handler: the text content it assigns to the `result`
element for each outcome of the `try` block. -/
def numberClickHandler (o : NumberFetchOutcome) : String :=
  match o with
  | .fetchThrows => numberFailMsg
  | .jsonThrows => numberFailMsg
  | .ok n => numberOkMsg n

/-! ## Helper lemmas -/

/-- `updateActiveResult` only toggles `active` classes: the focus index is
untouched. -/
theorem updateActiveResult_currentFocusIndex (st : UIState) :
    (updateActiveResult st).currentFocusIndex = st.currentFocusIndex := by
  unfold updateActiveResult
  cases st.dropdownContent <;> rfl

/-- `renderResults` never writes the stored result list. -/
theorem renderResults_searchResults (st : UIState) (rs : List SearchResult) :
    (renderResults st rs).searchResults = st.searchResults := by
  unfold renderResults
  split <;> rfl

/-- `renderItemsFrom` renders one item per input record. -/
theorem length_renderItemsFrom (st : UIState) (l : List SearchResult) :
    ∀ j, (renderItemsFrom st j l).length = l.length := by
  induction l with
  | nil => intro j; rfl
  | cons r rs ih => intro j; simp [renderItemsFrom, ih]

/-- Indexing into `renderItemsFrom`: the item at position `i` is the rendered
form of the record at position `i`, with display index `j + i`. -/
theorem renderItemsFrom_getElem? (st : UIState) (l : List SearchResult) :
    ∀ j i, (renderItemsFrom st j l)[i]? = l[i]?.map (fun r => renderItem st (j + i) r) := by
  induction l with
  | nil => intro j i; simp [renderItemsFrom]
  | cons r rs ih =>
      intro j i
      cases i with
      | zero => simp [renderItemsFrom]
      | succ i =>
          simp only [renderItemsFrom, List.getElem?_cons_succ, ih (j + 1) i]
          have : j + 1 + i = j + (i + 1) := by omega
          rw [this]

/-! ## C7 helper: the two messages of the number button differ -/

/-- The success message always differs from the fixed failure message. -/
theorem numberOkMsg_ne_fail (n : ℤ) : numberOkMsg n ≠ numberFailMsg := by
  intro h
  have h2 := congrArg String.length h
  simp only [numberOkMsg, numberFailMsg, String.length_append] at h2
  have h3 : ("隨機數字是：" : String).length = 6 := by decide
  have h4 : ("取得失敗" : String).length = 4 := by decide
  rw [h3, h4] at h2
  omega

/-- C7: the result element's text is the fixed failure message `取得失敗`
exactly when the fetch of the number endpoint or the JSON parsing of its body
throws; otherwise it is the success message built from the response's
`number` field. -/
theorem number_button_failure_iff (o : NumberFetchOutcome) :
    (numberClickHandler o = numberFailMsg ↔
      o = NumberFetchOutcome.fetchThrows ∨ o = NumberFetchOutcome.jsonThrows) ∧
    (∀ n : ℤ, numberClickHandler (NumberFetchOutcome.ok n) = numberOkMsg n) := by
  refine ⟨?_, fun n => rfl⟩
  cases o with
  | fetchThrows => simp [numberClickHandler]
  | jsonThrows => simp [numberClickHandler]
  | ok n =>
      simp only [numberClickHandler]
      constructor
      · intro h; exact absurd h (numberOkMsg_ne_fail n)
      · intro h; rcases h with h | h <;> cases h

/-- C9: with zero rendered result items (for example when the dropdown shows
only the no-results message), every keyboard event leaves the whole state —
dropdown content, `show` class, input focus and focus index — unchanged. -/
theorem keyboard_noop_without_items (st : UIState) (h : st.resultItems = [])
    (k : Key) : handleKeyboardNavigation st k = st := by
  unfold handleKeyboardNavigation
  simp [h]

/-- A concrete state whose dropdown shows only the no-results message: the
`show` class is present but there is no `.search-result-item` node. -/
def stNoResults : UIState :=
  { searchIndex := none
    currentFocusIndex := -1
    searchResults := []
    dropdownContent := .noResults
    dropdownShown := true
    inputFocused := true
    inputValue := "zz"
    navigatedTo := none
    log := [] }

/-- Witness for C9 at a concrete state showing the no-results message. -/
theorem keyboard_noop_without_items_witness :
    stNoResults.resultItems = [] ∧
    handleKeyboardNavigation stNoResults Key.enter = stNoResults :=
  ⟨rfl, keyboard_noop_without_items stNoResults rfl Key.enter⟩

/-- C8 counterexample: with the dropdown shown but holding only the
no-results message (zero `.search-result-item` nodes), Escape does NOT clear
the dropdown — `handleKeyboardNavigation` returns at the
`resultItems.length === 0` guard, so the `show` class survives, contradicting
the claim that every Escape received while the dropdown is shown clears it. -/
theorem escape_shown_counterexample :
    stNoResults.dropdownShown = true ∧
    stNoResults.resultItems.length = 0 ∧
    handleKeyboardNavigation stNoResults Key.escape = stNoResults ∧
    (handleKeyboardNavigation stNoResults Key.escape).dropdownShown = true ∧
    (handleKeyboardNavigation stNoResults Key.escape).dropdownContent =
      DropdownContent.noResults :=
  ⟨rfl, rfl, rfl, rfl, rfl⟩

/-- C8 (amended): for every Escape key event received while the dropdown
contains at least one result item, the handler empties the dropdown, removes
the `show` class, blurs the search input, and resets the focus index to -1. -/
theorem escape_clears_dropdown (st : UIState) (h : st.resultItems ≠ []) :
    handleKeyboardNavigation st Key.escape =
      { st with
          dropdownContent := .empty
          dropdownShown := false
          inputFocused := false
          currentFocusIndex := -1 } := by
  unfold handleKeyboardNavigation
  have hlen : ¬ st.resultItems.length = 0 := by
    simpa [List.length_eq_zero] using h
  simp [hlen]

/-- A concrete rendered dropdown entry. -/
def sampleItem : RenderedItem :=
  { path := "/skills/sample"
    nameHtml := "<mark>sa</mark>mple"
    descHtml := "demo"
    relevance := 50
    weight := 5
    index := 0
    isActive := false }

/-- A concrete state whose dropdown shows one result item. -/
def stOneItem : UIState :=
  { searchIndex := none
    currentFocusIndex := -1
    searchResults := []
    dropdownContent := .items [sampleItem]
    dropdownShown := true
    inputFocused := true
    inputValue := "sa"
    navigatedTo := none
    log := [] }

/-- Witness for the amended C8 at a concrete one-item state. -/
theorem escape_clears_dropdown_witness :
    stOneItem.resultItems ≠ [] ∧
    handleKeyboardNavigation stOneItem Key.escape =
      { stOneItem with
          dropdownContent := .empty
          dropdownShown := false
          inputFocused := false
          currentFocusIndex := -1 } :=
  ⟨by simp [stOneItem, UIState.resultItems], escape_clears_dropdown stOneItem (by simp [stOneItem, UIState.resultItems])⟩

/-- C10: when a query of length at least 2 makes the engine return an empty
hit list, `performSearch` shows the no-results message: the dropdown content
becomes the message and the `show` class is added, rather than the dropdown
being hidden. -/
theorem empty_results_show_message (st : UIState) (engine : SearchEngine)
    (h : st.searchIndex = some engine) (query : String)
    (hq : ¬ query.length < 2) (he : engine query = Except.ok []) :
    (performSearch st query).dropdownContent = DropdownContent.noResults ∧
    (performSearch st query).dropdownShown = true := by
  unfold performSearch
  rw [h]
  simp [hq, he, sortResults, renderResults]

/-- A concrete engine that finds nothing. -/
def emptyEngine : SearchEngine := fun _ => Except.ok []

/-- A concrete state with a loaded (always-empty) index. -/
def stEmptyEngine : UIState :=
  { searchIndex := some emptyEngine
    currentFocusIndex := -1
    searchResults := []
    dropdownContent := .empty
    dropdownShown := false
    inputFocused := true
    inputValue := "ab"
    navigatedTo := none
    log := [] }

/-- Witness for C10 at a concrete state and the query `ab`. -/
theorem empty_results_show_message_witness :
    stEmptyEngine.searchIndex = some emptyEngine ∧
    ¬ ("ab" : String).length < 2 ∧
    emptyEngine "ab" = Except.ok [] ∧
    (performSearch stEmptyEngine "ab").dropdownContent = DropdownContent.noResults ∧
    (performSearch stEmptyEngine "ab").dropdownShown = true :=
  ⟨rfl, by decide, rfl,
    (empty_results_show_message stEmptyEngine emptyEngine rfl "ab" (by decide) rfl).1,
    (empty_results_show_message stEmptyEngine emptyEngine rfl "ab" (by decide) rfl).2⟩

/-- C2: once the index is loaded, a (trimmed) query shorter than 2 characters
produces no dropdown: `performSearch` empties the dropdown HTML, removes the
`show` class, clears the stored result list and resets the focus index to -1,
and changes nothing else. -/
theorem short_query_clears_dropdown (st : UIState) (engine : SearchEngine)
    (h : st.searchIndex = some engine) (query : String)
    (hq : query.length < 2) :
    performSearch st query =
      { st with
          dropdownContent := .empty
          dropdownShown := false
          searchResults := []
          currentFocusIndex := -1 } := by
  unfold performSearch
  rw [h]
  simp [hq]

/-- Witness for C2 at a concrete loaded state and the one-character query
`a`. -/
theorem short_query_clears_dropdown_witness :
    stEmptyEngine.searchIndex = some emptyEngine ∧
    ("a" : String).length < 2 ∧
    performSearch stEmptyEngine "a" =
      { stEmptyEngine with
          dropdownContent := .empty
          dropdownShown := false
          searchResults := []
          currentFocusIndex := -1 } :=
  ⟨rfl, by decide, short_query_clears_dropdown stEmptyEngine emptyEngine rfl "a" (by decide)⟩

/-- C6: when the index download fails in any of the three ways,
`loadSearchIndex` logs the error and leaves `searchIndex` unset (`none`);
and while the index is unset, `performSearch` on any query only logs the
warning — dropdown content, `show` class, stored results, focus index and
index variable are all unchanged. -/
theorem load_failure_and_noop_queries (st : UIState) (h : st.searchIndex = none) :
    (∀ e : LoadError,
      (loadSearchIndex st (Except.error e)).searchIndex = none ∧
      (loadSearchIndex st (Except.error e)).log = st.log ++ [errIndexLoad]) ∧
    (∀ q : String,
      (performSearch st q).dropdownContent = st.dropdownContent ∧
      (performSearch st q).dropdownShown = st.dropdownShown ∧
      (performSearch st q).searchResults = st.searchResults ∧
      (performSearch st q).currentFocusIndex = st.currentFocusIndex ∧
      (performSearch st q).searchIndex = none ∧
      (performSearch st q).log = st.log ++ [warnIndexNotLoaded]) := by
  constructor
  · intro e
    simp [loadSearchIndex, h]
  · intro q
    simp [performSearch, h]

/-- A concrete state before any index load. -/
def stInitial : UIState :=
  { searchIndex := none
    currentFocusIndex := -1
    searchResults := []
    dropdownContent := .empty
    dropdownShown := false
    inputFocused := false
    inputValue := ""
    navigatedTo := none
    log := [] }

/-- Witness for C6 at the initial state, a network error and the query
`ab`. -/
theorem load_failure_and_noop_queries_witness :
    stInitial.searchIndex = none ∧
    (loadSearchIndex stInitial (Except.error LoadError.networkError)).searchIndex = none ∧
    (performSearch stInitial "ab").dropdownShown = stInitial.dropdownShown ∧
    (performSearch stInitial "ab").log = stInitial.log ++ [warnIndexNotLoaded] :=
  ⟨rfl,
    ((load_failure_and_noop_queries stInitial rfl).1 LoadError.networkError).1,
    ((load_failure_and_noop_queries stInitial rfl).2 "ab").2.1,
    ((load_failure_and_noop_queries stInitial rfl).2 "ab").2.2.2.2.2⟩

/-- C1: with at least one result item in the dropdown and a focus index in
`[-1, resultCount - 1]`, ArrowDown sets the focus index to
`min(currentFocusIndex + 1, resultCount - 1)`, ArrowUp sets it to
`max(currentFocusIndex - 1, -1)`, and after either event the focus index is
again within `[-1, resultCount - 1]`. -/
theorem arrow_keys_clamp_focus (st : UIState)
    (hn : st.resultItems.length ≠ 0)
    (hlo : -1 ≤ st.currentFocusIndex)
    (hhi : st.currentFocusIndex ≤ (st.resultItems.length : ℤ) - 1) :
    (handleKeyboardNavigation st Key.arrowDown).currentFocusIndex =
      min (st.currentFocusIndex + 1) ((st.resultItems.length : ℤ) - 1) ∧
    (handleKeyboardNavigation st Key.arrowUp).currentFocusIndex =
      max (st.currentFocusIndex - 1) (-1) ∧
    (-1 ≤ (handleKeyboardNavigation st Key.arrowDown).currentFocusIndex ∧
      (handleKeyboardNavigation st Key.arrowDown).currentFocusIndex ≤
        (st.resultItems.length : ℤ) - 1) ∧
    (-1 ≤ (handleKeyboardNavigation st Key.arrowUp).currentFocusIndex ∧
      (handleKeyboardNavigation st Key.arrowUp).currentFocusIndex ≤
        (st.resultItems.length : ℤ) - 1) := by
  have hdown : (handleKeyboardNavigation st Key.arrowDown).currentFocusIndex =
      min (st.currentFocusIndex + 1) ((st.resultItems.length : ℤ) - 1) := by
    unfold handleKeyboardNavigation
    simp [hn, updateActiveResult_currentFocusIndex]
  have hup : (handleKeyboardNavigation st Key.arrowUp).currentFocusIndex =
      max (st.currentFocusIndex - 1) (-1) := by
    unfold handleKeyboardNavigation
    simp [hn, updateActiveResult_currentFocusIndex]
  refine ⟨hdown, hup, ?_, ?_⟩
  · rw [hdown]
    omega
  · rw [hup]
    omega

/-- Witness for C1 at the concrete one-item state with focus index -1. -/
theorem arrow_keys_clamp_focus_witness :
    stOneItem.resultItems.length ≠ 0 ∧
    -1 ≤ stOneItem.currentFocusIndex ∧
    stOneItem.currentFocusIndex ≤ (stOneItem.resultItems.length : ℤ) - 1 ∧
    (handleKeyboardNavigation stOneItem Key.arrowDown).currentFocusIndex =
      min (stOneItem.currentFocusIndex + 1) ((stOneItem.resultItems.length : ℤ) - 1) :=
  ⟨by decide, by decide, by decide,
    (arrow_keys_clamp_focus stOneItem (by decide) (by decide) (by decide)).1⟩

/-- C3: for every non-empty hit list, `renderResults` renders at most 8
items; the item at each position `i < 8` is the rendered form of the `i`-th
result, and no item exists at positions 8 and beyond — results past index 7
are never rendered. -/
theorem render_truncates_to_eight (st : UIState) (results : List SearchResult)
    (h : results ≠ []) :
    (renderResults st results).resultItems.length ≤ 8 ∧
    (∀ i, i < 8 →
      ((renderResults st results).resultItems)[i]? =
        results[i]?.map (fun r => renderItem st i r)) ∧
    (∀ i, 8 ≤ i → ((renderResults st results).resultItems)[i]? = none) := by
  have hlen : ¬ results.length = 0 := by
    simpa [List.length_eq_zero] using h
  have hitems : (renderResults st results).resultItems =
      renderItemsFrom st 0 (results.take 8) := by
    unfold renderResults
    simp [hlen, UIState.resultItems]
  have hlen8 : (renderItemsFrom st 0 (results.take 8)).length ≤ 8 := by
    rw [length_renderItemsFrom]
    exact List.length_take_le 8 results
  refine ⟨by rw [hitems]; exact hlen8, ?_, ?_⟩
  · intro i hi
    rw [hitems, renderItemsFrom_getElem?]
    have : (results.take 8)[i]? = results[i]? := List.getElem?_take_of_lt hi
    rw [this]
    simp
  · intro i hi
    rw [hitems]
    apply List.getElem?_eq_none
    omega

/-! ## C5: the stored result list is adjacent-sorted by the comparator -/

/-- The comparator is antisymmetric: swapping the arguments negates it (the
absolute score difference is symmetric, both branch values flip sign). -/
theorem sortCmp_neg (a b : SearchResult) : sortCmp b a = -(sortCmp a b) := by
  unfold sortCmp
  rw [abs_sub_comm a.score b.score]
  split <;> ring

/-- The ranking the spec describes for adjacent stored results: the earlier
score exceeds the later by more than 0.1, or the scores are within 0.1 and
the earlier weight is at least the later one. -/
def rankedBefore (a b : SearchResult) : Prop :=
  b.score + 1/10 < a.score ∨ (|a.score - b.score| ≤ 1/10 ∧ b.weight ≤ a.weight)

/-- A non-positive comparator value means `a` is ranked before `b`. -/
theorem sortCmp_nonpos_rankedBefore (a b : SearchResult)
    (h : sortCmp a b ≤ 0) : rankedBefore a b := by
  unfold sortCmp at h
  unfold rankedBefore
  by_cases hc : |b.score - a.score| > 1/10
  · rw [if_pos hc] at h
    left
    rw [abs_sub_comm] at hc
    rw [abs_of_nonneg (by linarith)] at hc
    linarith
  · rw [if_neg hc] at h
    right
    push_neg at hc
    rw [abs_sub_comm] at hc
    exact ⟨hc, by linarith⟩

/-- Inserting into a comparator-chained list keeps it chained. -/
theorem chain'_insertCmp (x : SearchResult) (l : List SearchResult)
    (h : List.Chain' (fun a b => sortCmp a b ≤ 0) l) :
    List.Chain' (fun a b => sortCmp a b ≤ 0) (insertCmp x l) := by
  induction l with
  | nil => simp [insertCmp]
  | cons y ys ih =>
      unfold insertCmp
      by_cases hc : sortCmp x y ≤ 0
      · rw [if_pos hc]
        exact List.Chain'.cons hc h
      · rw [if_neg hc]
        push_neg at hc
        have htail : List.Chain' (fun a b => sortCmp a b ≤ 0) ys := h.tail
        refine List.chain'_cons'.2 ⟨?_, ih htail⟩
        intro z hz
        cases ys with
        | nil =>
            simp [insertCmp] at hz
            subst hz
            rw [sortCmp_neg]
            linarith
        | cons w ws =>
            by_cases hw : sortCmp x w ≤ 0
            · simp [insertCmp, hw] at hz
              subst hz
              rw [sortCmp_neg]
              linarith
            · simp [insertCmp, hw] at hz
              subst hz
              exact (List.chain'_cons.1 h).1

/-- Insertion sort with the comparator produces a list every adjacent pair of
which satisfies the comparator. -/
theorem chain'_sortResults (l : List SearchResult) :
    List.Chain' (fun a b => sortCmp a b ≤ 0) (sortResults l) := by
  induction l with
  | nil => simp [sortResults]
  | cons x xs ih => exact chain'_insertCmp x (sortResults xs) ih

/-- C5: after `performSearch` sorts the engine's hit list, the stored result
list is exactly the comparator-sorted hit list, and every adjacent pair of it
satisfies: the earlier score exceeds the later by more than 0.1, or the two
scores are within 0.1 of each other and the earlier weight is at least the
later one. -/
theorem search_results_sorted (st : UIState) (engine : SearchEngine)
    (h : st.searchIndex = some engine) (query : String)
    (hq : ¬ query.length < 2) (results : List SearchResult)
    (hres : engine query = Except.ok results) :
    (performSearch st query).searchResults = sortResults results ∧
    List.Chain' rankedBefore (performSearch st query).searchResults := by
  have hstore : (performSearch st query).searchResults = sortResults results := by
    unfold performSearch
    rw [h]
    simp [hq, hres, renderResults_searchResults]
  refine ⟨hstore, ?_⟩
  rw [hstore]
  exact (chain'_sortResults results).imp
    (fun a b hab => sortCmp_nonpos_rankedBefore a b hab)

/-- A hit with the lower score but the higher weight. -/
def rLow : SearchResult :=
  { id := 1, name := "alpha", description := "first", path := "/a", score := 1, weight := 9 }

/-- A hit with the higher score but the lower weight. -/
def rHigh : SearchResult :=
  { id := 2, name := "beta", description := "second", path := "/b", score := 2, weight := 1 }

/-- A concrete engine returning the two hits in ascending score order. -/
def twoEngine : SearchEngine := fun _ => Except.ok [rLow, rHigh]

/-- A concrete loaded state using `twoEngine`. -/
def stTwoEngine : UIState := { stEmptyEngine with searchIndex := some twoEngine }

/-- Witness for C5 at a concrete engine whose raw hit list is out of order. -/
theorem search_results_sorted_witness :
    stTwoEngine.searchIndex = some twoEngine ∧
    ¬ ("ab" : String).length < 2 ∧
    twoEngine "ab" = Except.ok [rLow, rHigh] ∧
    (performSearch stTwoEngine "ab").searchResults = sortResults [rLow, rHigh] ∧
    List.Chain' rankedBefore (performSearch stTwoEngine "ab").searchResults :=
  ⟨rfl, by decide, rfl,
    (search_results_sorted stTwoEngine twoEngine rfl "ab" (by decide) [rLow, rHigh] rfl).1,
    (search_results_sorted stTwoEngine twoEngine rfl "ab" (by decide) [rLow, rHigh] rfl).2⟩

/-! ## C4: highlighting -/

/-- A case-insensitive initial match needs at least `q.length` characters. -/
theorem ciStartsWith_length_le (q : List Char) :
    ∀ s, ciStartsWith q s = true → q.length ≤ s.length := by
  induction q with
  | nil => intro s _; simp
  | cons a q ih =>
      intro s h
      cases s with
      | nil => simp [ciStartsWith] at h
      | cons b s =>
          simp only [ciStartsWith, Bool.and_eq_true] at h
          simpa using ih s h.2

/-- A case-insensitive initial match is already contained in the first
`q.length` characters. -/
theorem ciStartsWith_take (q : List Char) :
    ∀ s, ciStartsWith q s = true → ciStartsWith q (s.take q.length) = true := by
  induction q with
  | nil => intro s _; rfl
  | cons a q ih =>
      intro s h
      cases s with
      | nil => simp [ciStartsWith] at h
      | cons b s =>
          simp only [ciStartsWith, Bool.and_eq_true] at h
          simp only [List.length_cons, List.take_succ_cons, ciStartsWith,
            Bool.and_eq_true]
          exact ⟨h.1, ih s h.2⟩

/-- Removing the inserted markers from the scan output restores the input
text exactly: the segment contents concatenate to the original character
list. -/
theorem stripSegs_hlScan (q : List Char) (s : List Char) :
    stripSegs (hlScan q s) = s := by
  induction s using hlScan.induct q with
  | case1 => rw [hlScan]; rfl
  | case2 c rest h ih =>
      rw [hlScan, if_pos h]
      simp only [stripSegs, List.map_cons, List.flatten_cons, Seg.content]
      simp only [stripSegs] at ih
      rw [ih]
      cases q with
      | nil => simp at h
      | cons a q' =>
          simp only [List.length_cons, Nat.add_sub_cancel, List.take_succ_cons]
          rw [List.cons_append, List.take_append_drop]
  | case3 c rest h ih =>
      rw [hlScan, if_neg h]
      simp only [stripSegs, List.map_cons, List.flatten_cons, Seg.content]
      simp only [stripSegs] at ih
      rw [ih]
      rfl

/-- Every marked segment of the scan output is a full case-insensitive match
of the query: it matches the query and has exactly the query's length. -/
theorem hlScan_marked (q : List Char) (s : List Char) :
    ∀ seg ∈ hlScan q s, ∀ cs, seg = Seg.marked cs →
      ciStartsWith q cs = true ∧ cs.length = q.length := by
  induction s using hlScan.induct q with
  | case1 =>
      rw [hlScan]
      intro seg hseg
      simp at hseg
  | case2 c rest h ih =>
      rw [hlScan, if_pos h]
      intro seg hseg cs hcs
      rcases List.mem_cons.1 hseg with hhead | htail
      · subst hhead
        cases hcs
        have hci : ciStartsWith q (c :: rest) = true := by
          simp only [Bool.and_eq_true] at h
          exact h.2
        refine ⟨ciStartsWith_take q (c :: rest) hci, ?_⟩
        rw [List.length_take]
        exact Nat.min_eq_left (ciStartsWith_length_le q (c :: rest) hci)
      · exact ih seg htail cs hcs
  | case3 c rest h ih =>
      rw [hlScan, if_neg h]
      intro seg hseg cs hcs
      rcases List.mem_cons.1 hseg with hhead | htail
      · subst hhead
        cases hcs
      · exact ih seg htail cs hcs

/-- C4 counterexample: for the text `aaa` and the query `aa`, the query
occurs (case-insensitively) at position 1, but that occurrence is not wrapped
in a `<mark>…</mark>` pair of the output — the greedy non-overlapping scan
already consumed positions 0–1, so `highlightMatch` returns
`<mark>aa</mark>a`.  Hence not every occurrence of the query is wrapped. -/
theorem highlight_overlap_counterexample :
    occursAt "aaa".toList "aa".toList 1 = true ∧
    hlScan "aa".toList "aaa".toList = [Seg.marked ['a', 'a'], Seg.plain ['a']] ∧
    wrappedAt (hlScan "aa".toList "aaa".toList) 1 2 = false ∧
    highlightMatch "aaa" "aa" = "<mark>aa</mark>a" := by
  have hscan : hlScan "aa".toList "aaa".toList = [Seg.marked ['a', 'a'], Seg.plain ['a']] := by
    simp +decide [hlScan]
  refine ⟨by decide, hscan, ?_, ?_⟩
  · rw [hscan]
    decide
  · rw [highlightMatch]
    rw [if_neg (by decide)]
    rw [hscan]
    decide

/-- C4 (amended): for every non-empty text and non-empty query,
`highlightMatch` wraps each match found by the greedy left-to-right
non-overlapping case-insensitive scan in `<mark>…</mark>`: every marked
segment is a full case-insensitive match of the query, and removing all
inserted marker tags from the output yields exactly the original text, so
non-matching text is unaltered. -/
theorem highlight_marks_and_preserves_text (text query : String)
    (ht : ¬ text.isEmpty = true) (hq : ¬ query.isEmpty = true) :
    highlightMatch text query = renderSegs (hlScan query.toList text.toList) ∧
    String.mk (stripSegs (hlScan query.toList text.toList)) = text ∧
    (∀ seg ∈ hlScan query.toList text.toList, ∀ cs, seg = Seg.marked cs →
      ciStartsWith query.toList cs = true ∧ cs.length = query.toList.length) := by
  refine ⟨?_, ?_, hlScan_marked query.toList text.toList⟩
  · rw [highlightMatch]
    rw [if_neg (by simp [ht, hq])]
  · rw [stripSegs_hlScan]
    rfl

/-- Witness for the amended C4 at the text `Hello` and the query `he`. -/
theorem highlight_marks_and_preserves_text_witness :
    ¬ ("Hello" : String).isEmpty = true ∧
    ¬ ("he" : String).isEmpty = true ∧
    String.mk (stripSegs (hlScan "he".toList "Hello".toList)) = "Hello" :=
  ⟨by decide, by decide,
    (highlight_marks_and_preserves_text "Hello" "he" (by decide) (by decide)).2.1⟩

/-- Witness for C3 at a concrete one-element hit list. -/
theorem render_truncates_to_eight_witness :
    ([rLow] : List SearchResult) ≠ [] ∧
    (renderResults stInitial [rLow]).resultItems.length ≤ 8 ∧
    ((renderResults stInitial [rLow]).resultItems)[8]? = none :=
  ⟨by simp,
    (render_truncates_to_eight stInitial [rLow] (by simp)).1,
    (render_truncates_to_eight stInitial [rLow] (by simp)).2.2 8 (by omega)⟩
